import Mathlib

/-!
Verification development for the oxc-vscode binary-discovery and
launch-descriptor code (`src/client/findBinary.ts` and the runtime/launch
helper exercised by `src/tests/unit/lsp_helper.spec.ts`).

Modelling conventions:
* Absolute filesystem paths are modelled as lists of path components
  (`List String`); the filesystem root is `[]`.  `path.dirname` on a
  component list is `List.dropLast` (and `dirname "/" = "/"` corresponds to
  `dropLast [] = []`).  `path.join dir name` is `dir ++ [name]`.
* A relative entry string such as `"bin/oxlint.mjs"` found inside a
  manifest is decoded into components with `String.splitOn "/"`;
  `path.resolve(dir, entry)` for such a plain relative entry is
  `dir ++ entry.splitOn "/"`.
* Asynchronous filesystem checks (`workspace.fs.stat` wrapped in
  try/catch) are modelled as boolean predicates on paths: any failure of
  the check counts as non-existence, exactly as in the source.
* `Promise.all` preserves the index order of its inputs, so the
  concurrent existence checks of `searchNodeModulesDefaultBinPath` are
  modelled as a joint, order-preserving evaluation of the candidate list.
-/

set_option autoImplicit false

namespace OxcVscode

/-- Auxiliary for `splitOnChar`: structural recursion over the character
list, accumulating the current (reversed) segment. -/
def splitOnCharAux (sep : Char) : List Char → List Char → List String
  | [], acc => [String.mk acc.reverse]
  | c :: cs, acc =>
    if c = sep then String.mk acc.reverse :: splitOnCharAux sep cs []
    else splitOnCharAux sep cs (c :: acc)

/-- Split a string on a single separator character (the behaviour of
JavaScript `s.split(sep)` / Lean `String.splitOn` for a one-character
separator), implemented structurally so it reduces by `rfl`. -/
def splitOnChar (sep : Char) (s : String) : List String :=
  splitOnCharAux sep s.data []

/-- `s.endsWith(suffix)` on the underlying character lists. -/
def strEndsWith (s suffix : String) : Bool :=
  suffix.data.isSuffixOf s.data

/-- Drop the last `n` characters of a string (JavaScript `s.slice(0, -n)`
for a string of length at least `n`). -/
def strDropRight (s : String) (n : Nat) : String :=
  String.mk (s.data.take (s.data.length - n))

/-- `s.trim()`: remove leading and trailing whitespace. -/
def trimStr (s : String) : String :=
  String.mk (((s.data.dropWhile Char.isWhitespace).reverse.dropWhile
    Char.isWhitespace).reverse)

/-- The `bin` field of a parsed `package.json`: either a single path string
or a mapping from binary name to path string
(`bin?: string | Record<string, string>` in the source). -/
inductive BinField where
  | str (s : String)
  | map (m : List (String × String))
  deriving DecidableEq, Repr

/-- The part of a parsed `package.json` that `replaceTargetFromMainToBin`
reads: the optional `bin` field. -/
structure PackageJson where
  bin : Option BinField
  deriving DecidableEq, Repr

/-- Outcome of `readFileSync(path.join(dir, "package.json"), "utf8")`
followed by `JSON.parse`: the read may throw (file unreadable — caught, the
walk continues), the parse may throw (uncaught, propagates out), or both
succeed. -/
inductive ReadOutcome where
  | unreadable
  | unparsable
  | parsed (pkg : PackageJson)
  deriving DecidableEq, Repr

/-- The distinct failures `replaceTargetFromMainToBin` can raise:
`Could not find package.json for "<name>"`, `No bin entry for "<name>"
found in package.json`, and an uncaught `JSON.parse` exception. -/
inductive FindErr where
  | manifestNotFound
  | binEntryNotFound
  | parseError
  deriving DecidableEq, Repr

/-- `path.resolve(dir, entry)` for a plain relative entry string:
the entry's slash-separated components appended to the directory. -/
def resolveEntry (dir : List String) (entry : String) : List String :=
  dir ++ splitOnChar '/' entry

/-- The bin entry selected for `binaryName`, mirroring
`typeof packageJson.bin === "string" ? packageJson.bin :
packageJson.bin?.[binaryName]` from the source. -/
def binEntryOf (pkg : PackageJson) (binaryName : String) : Option String :=
  match pkg.bin with
  | some (.str s) => some s
  | some (.map m) => m.lookup binaryName
  | none => none

/-- The chain of directories the `while (dir !== path.dirname(dir))` loop
visits, innermost first: `dir, dropLast dir, …` down to (and excluding) the
root `[]`.  Structured with a length fuel so that it reduces by `rfl`. -/
def ancestorsAux : Nat → List String → List (List String)
  | 0, _ => []
  | n + 1, dir => if dir = [] then [] else dir :: ancestorsAux n dir.dropLast

/-- All directories visited by the walk starting at `dir` (the root `[]`
itself is never visited, because the loop guard `dir !== path.dirname(dir)`
is checked before the read). -/
def ancestors (dir : List String) : List (List String) :=
  ancestorsAux dir.length dir

/-- One iteration step per directory of the ancestor chain, mirroring the
loop body of `replaceTargetFromMainToBin`: an unreadable `package.json`
continues the walk; the first readable one is authoritative — an unparsable
one propagates the parse exception, and a parsed one either yields its
(truthy) bin entry resolved against that directory or raises the
bin-entry-not-found error.  Exhausting the chain raises
manifest-not-found. -/
def replaceLoop (read : List String → ReadOutcome) (binaryName : String) :
    List (List String) → Except FindErr (List String)
  | [] => .error .manifestNotFound
  | dir :: rest =>
    match read (dir ++ ["package.json"]) with
    | .unreadable => replaceLoop read binaryName rest
    | .unparsable => .error .parseError
    | .parsed pkg =>
      match binEntryOf pkg binaryName with
      | none => .error .binEntryNotFound
      | some entry =>
        if entry = "" then .error .binEntryNotFound
        else .ok (resolveEntry dir entry)

/-- `replaceTargetFromMainToBin(resolvedPath, binaryName)` from
`src/client/findBinary.ts`: walk up from the directory containing
`resolvedPath` and use the nearest `package.json`'s `bin` entry.  The
`if (!binEntry)` falsy check of the source is the `entry = ""` test of
`replaceLoop` together with its `none` case. -/
def replaceTargetFromMainToBin (read : List String → ReadOutcome)
    (resolvedPath : List String) (binaryName : String) :
    Except FindErr (List String) :=
  replaceLoop read binaryName (ancestors resolvedPath.dropLast)

/-- The candidate list built by `searchNodeModulesDefaultBinPath` from
`src/client/findBinary.ts`: for each folder in caller order, the candidate
`<folder>/.bin/<binaryName>` (and on win32 also the same candidate with
the string `.exe` appended, directly after it). -/
def binCandidates (win32 : Bool) (binaryName : String)
    (folders : List (List String)) : List (List String) :=
  folders.flatMap fun folder =>
    let basePath := folder ++ [".bin", binaryName]
    if win32 then [basePath, folder ++ [".bin", binaryName ++ ".exe"]]
    else [basePath]

/-- `searchNodeModulesDefaultBinPath(binaryName, folders)` from
`src/client/findBinary.ts`: map the existence check over the candidates
(the `Promise.all` of stat calls, which preserves index order) and return
the candidate at the index of the first successful check
(`exists.findIndex(Boolean)`).  `stat` is the `workspace.fs.stat`-based
existence check (`false` for any failure); `win32` is
`process.platform === "win32"`. -/
def searchNodeModulesDefaultBinPath (stat : List String → Bool) (win32 : Bool)
    (binaryName : String) (folders : List (List String)) :
    Option (List String) :=
  let candidates := binCandidates win32 binaryName folders
  let checks := candidates.map stat
  match checks.findIdx? (fun b => b) with
  | none => none
  | some i => candidates.get? i

/-- Result of one `spawnSync(command, args, {shell: true, encoding})` call:
whether the call itself threw, the `error` field, the exit status and the
standard output. -/
structure SpawnOutcome where
  threw : Bool
  errored : Bool
  status : Int
  stdout : String

/-- `safeSpawnSync(command, args)` from `src/client/findBinary.ts`: run the
command; a thrown error, an `error` field, a non-zero status, or empty
trimmed output all yield `none`, otherwise the trimmed stdout. -/
def safeSpawnSync (run : String → List String → SpawnOutcome)
    (command : String) (args : List String) : Option String :=
  let r := run command args
  if r.threw then none
  else if r.errored || r.status != 0 then none
  else
    let trimmed := trimStr r.stdout
    if trimmed = "" then none else some trimmed

/-- Decode a path string printed by a subprocess into the component-list
representation used by the filesystem model. -/
def fsPathOfString (s : String) : List String :=
  (splitOnChar '/' s).filter (fun c => c ≠ "")

/-- The collaborators of `src/client/findBinary.ts`, as consumed by the
locators: the platform flag, the `workspace.fs.stat` existence check, the
`readFileSync` + `JSON.parse` of manifests, `require.resolve(name,
{paths})` (`none` when it throws), `workspace.workspaceFolders` (which may
be `undefined`), the `workspace.findFiles("**/package.json",
"**/node_modules/**")` result, `spawnSync`, and `homedir()`. -/
structure Env where
  win32 : Bool
  stat : List String → Bool
  readPackageJson : List String → ReadOutcome
  requireResolve : String → List (List String) → Option (List String)
  workspaceFolders : Option (List (List String))
  findFilesPackageJson : List (List String)
  runSpawn : String → List String → SpawnOutcome
  homedir : List String

/-- `getWorkspacePackageJsonNodeModules()` from `src/client/findBinary.ts`,
with the module-level `cachedWorkspacePackageJsonNodeModules` variable made
explicit: given the current memo, return the list of
`<dir of package.json>/node_modules` paths together with the updated memo.
An empty memo triggers the `workspace.findFiles` scan; a populated memo is
returned as-is. -/
def getWorkspacePackageJsonNodeModules (env : Env)
    (cache : Option (List (List String))) :
    List (List String) × Option (List (List String)) :=
  match cache with
  | some v => (v, some v)
  | none =>
    let v := env.findFilesPackageJson.map fun u => u.dropLast ++ ["node_modules"]
    (v, some v)

/-- `clearWorkspacePackageJsonNodeModulesCache()` from
`src/client/findBinary.ts`: reset the memo to `undefined`. -/
def clearWorkspacePackageJsonNodeModulesCache
    (_cache : Option (List (List String))) : Option (List (List String)) :=
  none

/-- `searchProjectNodeModulesBin(binaryName)` from
`src/client/findBinary.ts`: (1) `require.resolve` over the workspace
folders fed into `replaceTargetFromMainToBin`, any throw absorbed; (2)
direct probe of each workspace folder's `node_modules`; (3) probe of every
`node_modules` derived from the workspace `package.json` scan.  `cache` is
the current manifest-scan memo. -/
def searchProjectNodeModulesBin (env : Env)
    (cache : Option (List (List String))) (binaryName : String) :
    Option (List String) :=
  let tier1 : Option (List String) :=
    match env.requireResolve binaryName (env.workspaceFolders.getD []) with
    | some resolvedPath =>
      (replaceTargetFromMainToBin env.readPackageJson resolvedPath binaryName).toOption
    | none => none
  match tier1 with
  | some p => some p
  | none =>
    let workspaceNodeModules :=
      (env.workspaceFolders.getD []).map fun folder => folder ++ ["node_modules"]
    match searchNodeModulesDefaultBinPath env.stat env.win32 binaryName
        workspaceNodeModules with
    | some result => some result
    | none =>
      let packageJsonNodeModules := (getWorkspacePackageJsonNodeModules env cache).1
      searchNodeModulesDefaultBinPath env.stat env.win32 binaryName
        packageJsonNodeModules

/-- `globalNodeModulesPaths()` from `src/client/findBinary.ts`: query the
npm and pnpm global roots through `safeSpawnSync`, add the hardcoded bun
global directory under the home directory, and drop absent entries. -/
def globalNodeModulesPaths (env : Env) : List (List String) :=
  let npmGlobalNodeModulesPath := safeSpawnSync env.runSpawn "npm" ["root", "-g"]
  let pnpmGlobalNodeModulesPath := safeSpawnSync env.runSpawn "pnpm" ["root", "-g"]
  let bunGlobalNodeModulesPath :=
    env.homedir ++ [".bun", "install", "global", "node_modules"]
  [npmGlobalNodeModulesPath.map fsPathOfString,
   pnpmGlobalNodeModulesPath.map fsPathOfString,
   some bunGlobalNodeModulesPath].filterMap id

/-- `searchGlobalNodeModulesBin(binaryName)` from
`src/client/findBinary.ts`: `require.resolve` over the global roots fed
into `replaceTargetFromMainToBin` (throws absorbed), then a direct probe of
the same roots. -/
def searchGlobalNodeModulesBin (env : Env) (binaryName : String) :
    Option (List String) :=
  let globalPaths := globalNodeModulesPaths env
  let tier1 : Option (List String) :=
    match env.requireResolve binaryName globalPaths with
    | some resolvedPath =>
      (replaceTargetFromMainToBin env.readPackageJson resolvedPath binaryName).toOption
    | none => none
  match tier1 with
  | some p => some p
  | none => searchNodeModulesDefaultBinPath env.stat env.win32 binaryName globalPaths

/-- The collaborators of `searchSettingsBin`, which operates on raw path
strings: the workspace trust flag, the external `validateSafeBinaryPath`
predicate, the platform flag, `path.isAbsolute`, the first workspace
folder's path (`workspace.workspaceFolders?.[0]?.uri.fsPath`),
`path.normalize(path.join(cwd, s))`, and the string-level
`workspace.fs.stat` existence check. -/
structure SettingsEnv where
  isTrusted : Bool
  validateSafeBinaryPath : String → Bool
  win32 : Bool
  isAbsolute : String → Bool
  firstWorkspaceFolder : Option String
  joinNorm : String → String → String
  stat : String → Bool

/-- The tail of `searchSettingsBin` after the non-win32 `.exe` strip: check
existence of the (possibly stripped) path; on a miss, on win32 only, append
`.exe` when not already present (`if (!settingsBinary.endsWith(".exe"))
settingsBinary += ".exe"`) and check again. -/
def searchSettingsBinTail (env : SettingsEnv) (r1 : String) : Option String :=
  if env.stat r1 then some r1
  else if env.win32 then
    if env.stat (if strEndsWith r1 ".exe" then r1 else r1 ++ ".exe") then
      some (if strEndsWith r1 ".exe" then r1 else r1 ++ ".exe")
    else none
  else none

/-- `searchSettingsBin(settingsBinary)` from `src/client/findBinary.ts`:
trust gate, safety predicate, resolution of relative paths against the
first workspace folder, `.exe` stripping on non-win32, then the existence
checks of `searchSettingsBinTail`. -/
def searchSettingsBin (env : SettingsEnv) (settingsBinary : String) :
    Option String :=
  if !env.isTrusted then none
  else if !env.validateSafeBinaryPath settingsBinary then none
  else
    match (if env.isAbsolute settingsBinary then some settingsBinary
        else env.firstWorkspaceFolder.map fun cwd =>
          env.joinNorm cwd settingsBinary) with
    | none => none
    | some r0 =>
      searchSettingsBinTail env
        (if !env.win32 && strEndsWith r0 ".exe" then strDropRight r0 4 else r0)

/-- Result of one `spawnSync` call as observed by the runtime resolver (a
`{status, stdout, stderr, error}` record; `hasError` is whether the `error`
field was set). -/
structure ProcResult where
  status : Int
  stdout : String
  hasError : Bool

/-- Modelled from the spec: the collaborators of the RuntimeResolver and
LaunchDescriptorBuilder of `src/client/tools/lsp_helper.ts`, whose source
is not part of this repository snapshot (only its unit tests are): the
platform flag, `process.env.PATH`, `process.env.SHELL`, the synchronous
spawn primitive (invoked with a 5-second timeout), and
`process.execPath`. -/
structure LspEnv where
  win32 : Bool
  envPATH : Option String
  envSHELL : Option String
  spawn : String → List String → ProcResult
  execPath : String

/-- Whether a spawn succeeded: no spawn error and exit status zero. -/
def spawnOk (r : ProcResult) : Bool :=
  !r.hasError && r.status == 0

/-- The last non-empty line of a block of standard output. -/
def lastNonEmptyLine (s : String) : Option String :=
  ((splitOnChar '\n' s).filter (fun l => l ≠ "")).getLast?

/-- Modelled from the spec: `path.dirname` on the path strings handled by
the runtime resolver (slash-separated; a string without a separator has
directory `"."`). -/
def dirnameStr (s : String) : String :=
  let parts := splitOnChar '/' s
  if parts.length ≤ 1 then "."
  else String.intercalate "/" parts.dropLast

/-- Modelled from the spec: the environment mapping of the launch
descriptor built by `lsp_helper.ts` (missing from this snapshot).  When a
runtime directory was resolved and is not already a directory of `PATH`,
it is prepended (separator-joined) to the inherited `PATH`; when the
host-runtime fallback was taken, `ELECTRON_RUN_AS_NODE=1` is added. -/
def launchEnv (env : LspEnv) (runtimeDir : Option String) (electron : Bool) :
    List (String × String) :=
  (if electron then [("ELECTRON_RUN_AS_NODE", "1")] else []) ++
  (match runtimeDir, env.envPATH with
   | some d, some p =>
     if d = "." || (splitOnChar ':' p).contains d then [("PATH", p)]
     else [("PATH", d ++ ":" ++ p)]
   | some d, none => if d = "." then [] else [("PATH", d)]
   | none, some p => [("PATH", p)]
   | none, none => [])

/-- Modelled from the spec: the RuntimeResolver of `lsp_helper.ts` (missing
from this snapshot), §4.7 of the specification.  Tiers: (1) an explicitly
supplied runtime path wins; (2) spawning the canonical command name `node`
succeeds, so `node` itself is the resolved value; (3) the shell named by
`SHELL` is run as `-ilc` with a command printing the runtime path and the
last non-empty stdout line is taken; (4) fall back to `process.execPath`,
flagging that it must run as a bare interpreter.  The returned Boolean is
that host-runtime-fallback flag. -/
def resolveNodePath (env : LspEnv) (explicit : Option String) :
    String × Bool :=
  match explicit with
  | some p => (p, false)
  | none =>
    if spawnOk (env.spawn "node" ["--version"]) then ("node", false)
    else
      match env.envSHELL with
      | some shell =>
        let r := env.spawn shell ["-ilc", "which node"]
        if spawnOk r then
          match lastNonEmptyLine r.stdout with
          | some line => (line, false)
          | none => (env.execPath, true)
        else (env.execPath, true)
      | none => (env.execPath, true)

/-- The spawn descriptor produced for the language server: command,
arguments, shell flag and environment overrides. -/
structure LaunchDescriptor where
  command : String
  args : List String
  shell : Bool
  env : List (String × String)

/-- Modelled from the spec: `runExecutable(targetPath, toolName,
nodePath?)` of `lsp_helper.ts` (missing from this snapshot), §4.8 of the
specification and its unit tests.  A target ending in `.js`/`.cjs`/`.mjs`
runs under the resolved runtime with `args = [targetPath, "--lsp"]`; any
other target is a standalone binary with `args = ["--lsp"]`, double-quoted
with `shell = true` on win32 and bare with `shell = false` elsewhere. -/
def runExecutable (env : LspEnv) (targetPath _toolName : String)
    (nodePath : Option String) : LaunchDescriptor :=
  let isScript := strEndsWith targetPath ".js" || strEndsWith targetPath ".cjs" ||
    strEndsWith targetPath ".mjs"
  if isScript then
    let rp := resolveNodePath env nodePath
    { command := rp.1, args := [targetPath, "--lsp"], shell := false,
      env := launchEnv env (some (dirnameStr rp.1)) rp.2 }
  else
    let renv := launchEnv env (nodePath.map dirnameStr) false
    if env.win32 then
      { command := "\"" ++ targetPath ++ "\"", args := ["--lsp"], shell := true,
        env := renv }
    else
      { command := targetPath, args := ["--lsp"], shell := false, env := renv }

/-- Concrete filesystem for the C1 witness: a manifest with a bin mapping
at `/a`, nothing readable elsewhere. -/
def c1WitnessRead (q : List String) : ReadOutcome :=
  if q = ["a", "package.json"] then .parsed ⟨some (.map [("x", "bin/x.js")])⟩
  else .unreadable

/-- Concrete filesystem for the C1 counterexample: the nearest manifest
declares `bin` as the plain (falsy) string `""`. -/
def c1CexRead (q : List String) : ReadOutcome :=
  if q = ["a", "package.json"] then .parsed ⟨some (.str "")⟩
  else .unreadable

/-- Concrete filesystem for the C2 counterexample: the only manifest lives
at the filesystem root and has a plain-string bin entry. -/
def c2CexRead (q : List String) : ReadOutcome :=
  if q = ["package.json"] then .parsed ⟨some (.str "b")⟩
  else .unreadable

/-- A filesystem in which nothing is readable, for witnesses. -/
def noRead (_q : List String) : ReadOutcome := .unreadable

/-- Host environment mirroring the login-shell unit test: `node` is not on
PATH, `SHELL` is `/bin/zsh`, and the shell prints a noise line followed by
the runtime path. -/
def lspEnvShell : LspEnv :=
  { win32 := false, envPATH := some "/usr/bin:/bin", envSHELL := some "/bin/zsh",
    spawn := fun c _ =>
      if c = "node" then ⟨1, "", false⟩
      else if c = "/bin/zsh" then ⟨0, "noise\n/opt/homebrew/bin/node\n", false⟩
      else ⟨1, "", false⟩,
    execPath := "/usr/share/code/code" }

/-- Host environment in which every subprocess fails, so runtime resolution
falls through to `process.execPath`. -/
def lspEnvFail : LspEnv :=
  { win32 := false, envPATH := some "/usr/bin:/bin", envSHELL := some "/bin/zsh",
    spawn := fun _ _ => ⟨1, "", false⟩,
    execPath := "/usr/share/code/code" }

/-- A win32 host environment with every subprocess failing. -/
def lspEnvWin : LspEnv :=
  { win32 := true, envPATH := none, envSHELL := none,
    spawn := fun _ _ => ⟨1, "", false⟩, execPath := "C:/code.exe" }

/-- Concrete existence check for the C3 witness: only `/b/.bin/x`
exists. -/
def c3Stat (p : List String) : Bool :=
  p = ["b", ".bin", "x"]

/-- An environment in which no package is reachable from any source: module
resolution always throws, every existence check fails, every subprocess
fails. -/
def envNothing : Env :=
  { win32 := false
    stat := fun _ => false
    readPackageJson := noRead
    requireResolve := fun _ _ => none
    workspaceFolders := some [["ws"]]
    findFilesPackageJson := [["ws", "pkg", "package.json"]]
    runSpawn := fun _ _ => ⟨false, false, 1, ""⟩
    homedir := ["home", "u"] }

/-- A settings environment whose filesystem contains nothing. -/
def senvNothing : SettingsEnv :=
  { isTrusted := true
    validateSafeBinaryPath := fun _ => true
    win32 := false
    isAbsolute := fun _ => true
    firstWorkspaceFolder := some "/ws"
    joinNorm := fun cwd s => cwd ++ "/" ++ s
    stat := fun _ => false }

/-- Environment for the C5 witness: module resolution fails but
`/ws/node_modules/.bin/oxlint` exists. -/
def envTier2 : Env :=
  { envNothing with stat := fun p => p = ["ws", "node_modules", ".bin", "oxlint"] }

/-- Environment for the first C6 scan: one manifest, at `/a/package.json`. -/
def envScanA : Env :=
  { envNothing with findFilesPackageJson := [["a", "package.json"]] }

/-- Environment for the second C6 scan: a manifest at `/b/package.json` has
appeared. -/
def envScanB : Env :=
  { envNothing with
      findFilesPackageJson := [["a", "package.json"], ["b", "package.json"]] }

/-- Settings environment for the C9 counterexample: win32, everything
trusted and safe, and the only existing file is `C:/x.exe.exe`. -/
def senvC9 : SettingsEnv :=
  { isTrusted := true
    validateSafeBinaryPath := fun _ => true
    win32 := true
    isAbsolute := fun _ => true
    firstWorkspaceFolder := none
    joinNorm := fun cwd s => cwd ++ "/" ++ s
    stat := fun q => q = "C:/x.exe.exe" }

/-- Settings environment for the C9 witness: win32, only `C:/tool.exe`
exists. -/
def senvWin : SettingsEnv :=
  { senvC9 with stat := fun q => q = "C:/tool.exe" }

/-- Untrusted settings environment in which every path exists and every
path is declared safe, for the C10 witness. -/
def senvUntrusted : SettingsEnv :=
  { isTrusted := false
    validateSafeBinaryPath := fun _ => true
    win32 := false
    isAbsolute := fun _ => true
    firstWorkspaceFolder := some "/ws"
    joinNorm := fun cwd s => cwd ++ "/" ++ s
    stat := fun _ => true }

end OxcVscode

namespace OxcVscode

lemma replaceLoop_append_unreadable (read : List String → ReadOutcome)
    (binaryName : String) (pre rest : List (List String))
    (hpre : ∀ d ∈ pre, read (d ++ ["package.json"]) = .unreadable) :
    replaceLoop read binaryName (pre ++ rest) = replaceLoop read binaryName rest := by
  induction pre with
  | nil => rfl
  | cons p pre ih =>
    have hp : read (p ++ ["package.json"]) = .unreadable :=
      hpre p (List.mem_cons_self p pre)
    simp only [List.cons_append, replaceLoop, hp]
    exact ih fun d hd => hpre d (List.mem_cons_of_mem p hd)

lemma replaceLoop_congr (read1 read2 : List String → ReadOutcome)
    (binaryName : String) (dirs : List (List String))
    (h : ∀ d ∈ dirs, read1 (d ++ ["package.json"]) = read2 (d ++ ["package.json"])) :
    replaceLoop read1 binaryName dirs = replaceLoop read2 binaryName dirs := by
  induction dirs with
  | nil => rfl
  | cons d rest ih =>
    have hd : read1 (d ++ ["package.json"]) = read2 (d ++ ["package.json"]) :=
      h d (List.mem_cons_self d rest)
    have ih2 := ih fun d' hd' => h d' (List.mem_cons_of_mem d hd')
    simp only [replaceLoop, hd]
    cases read2 (d ++ ["package.json"]) with
    | unreadable => exact ih2
    | unparsable => rfl
    | parsed pkg => rfl

lemma mem_ancestorsAux_ne_nil :
    ∀ (n : Nat) (dir d : List String), d ∈ ancestorsAux n dir → d ≠ [] := by
  intro n
  induction n with
  | zero => intro dir d hd; simp [ancestorsAux] at hd
  | succ n ih =>
    intro dir d hd
    by_cases hdir : dir = []
    · simp [ancestorsAux, hdir] at hd
    · simp only [ancestorsAux, if_neg hdir, List.mem_cons] at hd
      rcases hd with h | h
      · exact h ▸ hdir
      · exact ih dir.dropLast d h

lemma mem_ancestors_ne_nil (dir d : List String) (hd : d ∈ ancestors dir) :
    d ≠ [] :=
  mem_ancestorsAux_ne_nil dir.length dir d hd

/-- Claim C1 (amended): the first (innermost) ancestor directory of the
starting path whose `package.json` is readable is authoritative for
`replaceTargetFromMainToBin` — a plain-string `bin` resolves against that
directory for every queried binary name, a mapping resolves its entry for
the queried name, and a missing (or, per the source's falsy test, empty)
entry raises the bin-entry-not-found error without walking to outer
directories (the hypotheses constrain only the inner ancestors; outer
directories are arbitrary). -/
theorem replaceTarget_first_manifest_authoritative
    (read : List String → ReadOutcome) (resolvedPath : List String)
    (binaryName : String) (pre suf : List (List String)) (d : List String)
    (pkg : PackageJson)
    (hchain : ancestors resolvedPath.dropLast = pre ++ d :: suf)
    (hpre : ∀ d' ∈ pre, read (d' ++ ["package.json"]) = .unreadable)
    (hd : read (d ++ ["package.json"]) = .parsed pkg) :
    (∀ s, pkg.bin = some (.str s) → s ≠ "" →
      replaceTargetFromMainToBin read resolvedPath binaryName = .ok (resolveEntry d s)) ∧
    (pkg.bin = some (.str "") →
      replaceTargetFromMainToBin read resolvedPath binaryName = .error .binEntryNotFound) ∧
    (∀ m e, pkg.bin = some (.map m) → m.lookup binaryName = some e → e ≠ "" →
      replaceTargetFromMainToBin read resolvedPath binaryName = .ok (resolveEntry d e)) ∧
    (∀ m, pkg.bin = some (.map m) →
      (m.lookup binaryName = none ∨ m.lookup binaryName = some "") →
      replaceTargetFromMainToBin read resolvedPath binaryName = .error .binEntryNotFound) ∧
    (pkg.bin = none →
      replaceTargetFromMainToBin read resolvedPath binaryName = .error .binEntryNotFound) := by
  have key : replaceTargetFromMainToBin read resolvedPath binaryName =
      replaceLoop read binaryName (d :: suf) := by
    unfold replaceTargetFromMainToBin
    rw [hchain]
    exact replaceLoop_append_unreadable read binaryName pre (d :: suf) hpre
  refine ⟨?_, ?_, ?_, ?_, ?_⟩
  · intro s hs hne
    rw [key]
    simp [replaceLoop, hd, binEntryOf, hs, hne]
  · intro hs
    rw [key]
    simp [replaceLoop, hd, binEntryOf, hs]
  · intro m e hm hl hne
    rw [key]
    simp [replaceLoop, hd, binEntryOf, hm, hl, hne]
  · intro m hm hl
    rw [key]
    rcases hl with hl | hl <;> simp [replaceLoop, hd, binEntryOf, hm, hl]
  · intro hb
    rw [key]
    simp [replaceLoop, hd, binEntryOf, hb]

/-- Witness for C1: a manifest at `/a` with `bin: {"x": "bin/x.js"}` and an
unreadable `/a/dist/package.json` resolves `x` from `/a/dist/index.js` to
`/a/bin/x.js`. -/
theorem replaceTarget_first_manifest_authoritative_witness :
    replaceTargetFromMainToBin c1WitnessRead ["a", "dist", "index.js"] "x" =
      .ok (resolveEntry ["a"] "bin/x.js") :=
  (replaceTarget_first_manifest_authoritative c1WitnessRead
    ["a", "dist", "index.js"] "x" [["a", "dist"]] [] ["a"]
    ⟨some (.map [("x", "bin/x.js")])⟩ (by decide) (by decide) (by decide)).2.2.1
    [("x", "bin/x.js")] "bin/x.js" rfl rfl (by decide)

/-- Counterexample for C1 as stated: the nearest manifest's `bin` field is
the plain string `""`, yet the result is the bin-entry-not-found error
rather than that entry resolved against the manifest directory — the
source's `if (!binEntry)` falsy test rejects the empty string. -/
theorem replaceTarget_plain_string_empty_cex :
    replaceTargetFromMainToBin c1CexRead ["a", "f.js"] "x" =
        .error .binEntryNotFound ∧
      c1CexRead (["a"] ++ ["package.json"]) = .parsed ⟨some (.str "")⟩ :=
  ⟨rfl, rfl⟩

/-- Claim C2 (amended): the ancestor walk never examines the filesystem
root itself — if every ancestor strictly below the root is unreadable the
manifest-not-found error is raised, and the result never depends on the
root directory's `package.json`. -/
theorem replaceTarget_root_never_examined
    (read read2 : List String → ReadOutcome) (resolvedPath : List String)
    (binaryName : String) :
    ((∀ d ∈ ancestors resolvedPath.dropLast,
        read (d ++ ["package.json"]) = .unreadable) →
      replaceTargetFromMainToBin read resolvedPath binaryName =
        .error .manifestNotFound) ∧
    ((∀ d : List String, d ≠ [] →
        read (d ++ ["package.json"]) = read2 (d ++ ["package.json"])) →
      replaceTargetFromMainToBin read resolvedPath binaryName =
        replaceTargetFromMainToBin read2 resolvedPath binaryName) := by
  constructor
  · intro h
    unfold replaceTargetFromMainToBin
    have : ancestors resolvedPath.dropLast =
        ancestors resolvedPath.dropLast ++ [] := by simp
    rw [this, replaceLoop_append_unreadable read binaryName _ [] h]
    rfl
  · intro h
    unfold replaceTargetFromMainToBin
    exact replaceLoop_congr read read2 binaryName _ fun d hd =>
      h d (mem_ancestors_ne_nil _ d hd)

/-- Witness for C2: with nothing readable anywhere, resolution from
`/a/f.js` raises the manifest-not-found error. -/
theorem replaceTarget_root_never_examined_witness :
    replaceTargetFromMainToBin noRead ["a", "f.js"] "x" =
      .error .manifestNotFound :=
  (replaceTarget_root_never_examined noRead noRead ["a", "f.js"] "x").1
    fun _ _ => rfl

/-- Counterexample for C2 as stated: a `package.json` sitting at the
filesystem root, with a valid plain-string bin entry, is not found — the
loop guard `dir !== path.dirname(dir)` exits before the root is ever read,
so the walk raises manifest-not-found instead of using it. -/
theorem replaceTarget_root_manifest_ignored_cex :
    replaceTargetFromMainToBin c2CexRead ["f.js"] "x" =
        .error .manifestNotFound ∧
      c2CexRead ([] ++ ["package.json"]) = .parsed ⟨some (.str "b")⟩ :=
  ⟨rfl, rfl⟩

end OxcVscode

namespace OxcVscode

lemma findIdx_map_get_eq_find {α : Type} (f : α → Bool) :
    ∀ cs : List α,
      (match (cs.map f).findIdx? (fun b => b) with
       | none => none
       | some i => cs.get? i) = cs.find? f := by
  intro cs
  induction cs with
  | nil => rfl
  | cons c cs ih =>
    cases hfc : f c with
    | true =>
      simp [List.findIdx?_cons, hfc, List.find?_cons_of_pos _ hfc]
    | false =>
      rw [List.find?_cons_of_neg _ (by simp [hfc])]
      rw [← ih]
      simp only [List.map_cons, List.findIdx?_cons, hfc, if_neg Bool.false_ne_true]
      cases ho : (cs.map f).findIdx? (fun b => b) with
      | none => simp [ho]
      | some i => simp [ho]

lemma find_eq_some_split {α : Type} (f : α → Bool) :
    ∀ (cs : List α) (c : α), cs.find? f = some c →
      f c = true ∧ ∃ pre suf, cs = pre ++ c :: suf ∧ ∀ b ∈ pre, f b = false := by
  intro cs
  induction cs with
  | nil => intro c h; simp at h
  | cons a l ih =>
    intro c h
    cases hfa : f a with
    | false =>
      rw [List.find?_cons_of_neg _ (by simp [hfa])] at h
      obtain ⟨hfc, pre, suf, heq, hpre⟩ := ih c h
      refine ⟨hfc, a :: pre, suf, by simp [heq], ?_⟩
      intro b hb
      rcases List.mem_cons.mp hb with rfl | hb
      · exact hfa
      · exact hpre b hb
    | true =>
      rw [List.find?_cons_of_pos _ hfa] at h
      cases h
      exact ⟨hfa, [], l, rfl, by simp⟩

lemma searchNodeModules_eq_find (stat : List String → Bool) (win32 : Bool)
    (binaryName : String) (folders : List (List String)) :
    searchNodeModulesDefaultBinPath stat win32 binaryName folders =
      (binCandidates win32 binaryName folders).find? stat := by
  unfold searchNodeModulesDefaultBinPath
  exact findIdx_map_get_eq_find stat (binCandidates win32 binaryName folders)

end OxcVscode

namespace OxcVscode

/-- Claim C3: `searchNodeModulesDefaultBinPath` builds the candidates
`<folder>/.bin/<name>` in caller order — on win32 with the `.exe`-suffixed
candidate immediately after the unsuffixed one — and returns the first
candidate in that original ordering whose existence check succeeds (a
failing filesystem check counting as non-existence), or `none` when every
check fails. -/
theorem searchNodeModules_first_existing_candidate
    (stat : List String → Bool) (win32 : Bool) (binaryName : String)
    (folders : List (List String)) :
    (binCandidates true binaryName folders = folders.flatMap fun folder =>
      [folder ++ [".bin", binaryName], folder ++ [".bin", binaryName ++ ".exe"]]) ∧
    (binCandidates false binaryName folders = folders.map fun folder =>
      folder ++ [".bin", binaryName]) ∧
    searchNodeModulesDefaultBinPath stat win32 binaryName folders =
      (binCandidates win32 binaryName folders).find? stat ∧
    (searchNodeModulesDefaultBinPath stat win32 binaryName folders = none ↔
      ∀ c ∈ binCandidates win32 binaryName folders, stat c = false) ∧
    (∀ c, searchNodeModulesDefaultBinPath stat win32 binaryName folders = some c →
      stat c = true ∧ ∃ pre suf,
        binCandidates win32 binaryName folders = pre ++ c :: suf ∧
        ∀ b ∈ pre, stat b = false) := by
  refine ⟨rfl, ?_, ?_, ?_, ?_⟩
  · induction folders with
    | nil => rfl
    | cons f fs ih => simpa [binCandidates] using ih
  · exact searchNodeModules_eq_find stat win32 binaryName folders
  · rw [searchNodeModules_eq_find stat win32 binaryName folders,
      List.find?_eq_none]
    constructor
    · intro h c hc
      simpa using h c hc
    · intro h c hc
      simp [h c hc]
  · intro c hc
    rw [searchNodeModules_eq_find stat win32 binaryName folders] at hc
    exact find_eq_some_split stat _ c hc

/-- Witness for C3: with only `/b/.bin/x` existing and folders
`[/a, /b]`, the probe returns `/b/.bin/x`. -/
theorem searchNodeModules_first_existing_candidate_witness :
    searchNodeModulesDefaultBinPath c3Stat false "x" [["a"], ["b"]] =
      some ["b", ".bin", "x"] := by
  have h :=
    (searchNodeModules_first_existing_candidate c3Stat false "x" [["a"], ["b"]]).2.2.1
  rw [h]
  rfl

end OxcVscode

namespace OxcVscode

lemma searchNodeModules_none_of_stat (stat : List String → Bool)
    (win32 : Bool) (binaryName : String) (folders : List (List String))
    (h : ∀ p, stat p = false) :
    searchNodeModulesDefaultBinPath stat win32 binaryName folders = none := by
  rw [searchNodeModules_eq_find, List.find?_eq_none]
  intro c _
  simp [h c]

lemma searchSettingsBin_none_of_stat (senv : SettingsEnv) (s : String)
    (h : ∀ q, senv.stat q = false) :
    searchSettingsBin senv s = none := by
  unfold searchSettingsBin
  split
  · rfl
  · split
    · rfl
    · split
      · rfl
      · simp [searchSettingsBinTail, h]

end OxcVscode

namespace OxcVscode

/-- Claim C5: `searchProjectNodeModulesBin` tries its three tiers in strict
order — module resolution fed into manifest-based bin resolution, then the
direct probe of each workspace folder's `node_modules`, then the probe of
every dependency directory from the workspace manifest index — returning
the first hit of the earliest successful tier. -/
theorem searchProject_tiers_strictly_ordered (env : Env)
    (cache : Option (List (List String))) (binaryName : String) :
    (∀ p,
      (match env.requireResolve binaryName (env.workspaceFolders.getD []) with
       | some rp =>
         (replaceTargetFromMainToBin env.readPackageJson rp binaryName).toOption
       | none => none) = some p →
      searchProjectNodeModulesBin env cache binaryName = some p) ∧
    ((match env.requireResolve binaryName (env.workspaceFolders.getD []) with
      | some rp =>
        (replaceTargetFromMainToBin env.readPackageJson rp binaryName).toOption
      | none => none) = none →
      ∀ p, searchNodeModulesDefaultBinPath env.stat env.win32 binaryName
          ((env.workspaceFolders.getD []).map fun folder =>
            folder ++ ["node_modules"]) = some p →
        searchProjectNodeModulesBin env cache binaryName = some p) ∧
    ((match env.requireResolve binaryName (env.workspaceFolders.getD []) with
      | some rp =>
        (replaceTargetFromMainToBin env.readPackageJson rp binaryName).toOption
      | none => none) = none →
      searchNodeModulesDefaultBinPath env.stat env.win32 binaryName
        ((env.workspaceFolders.getD []).map fun folder =>
          folder ++ ["node_modules"]) = none →
      searchProjectNodeModulesBin env cache binaryName =
        searchNodeModulesDefaultBinPath env.stat env.win32 binaryName
          (getWorkspacePackageJsonNodeModules env cache).1) := by
  have hbody : searchProjectNodeModulesBin env cache binaryName =
      (match (match env.requireResolve binaryName (env.workspaceFolders.getD []) with
        | some rp =>
          (replaceTargetFromMainToBin env.readPackageJson rp binaryName).toOption
        | none => none) with
      | some p => some p
      | none =>
        match searchNodeModulesDefaultBinPath env.stat env.win32 binaryName
            ((env.workspaceFolders.getD []).map fun folder =>
              folder ++ ["node_modules"]) with
        | some result => some result
        | none =>
          searchNodeModulesDefaultBinPath env.stat env.win32 binaryName
            (getWorkspacePackageJsonNodeModules env cache).1) := rfl
  refine ⟨?_, ?_, ?_⟩
  · intro p hp
    rw [hbody, hp]
  · intro h1 p hp
    rw [hbody, h1, hp]
  · intro h1 h2
    rw [hbody, h1, h2]

/-- Witness for C5: with module resolution failing everywhere and
`/ws/node_modules/.bin/oxlint` existing, tier 2 yields the hit. -/
theorem searchProject_tiers_strictly_ordered_witness :
    searchProjectNodeModulesBin envTier2 none "oxlint" =
      some ["ws", "node_modules", ".bin", "oxlint"] :=
  (searchProject_tiers_strictly_ordered envTier2 none "oxlint").2.1 rfl
    ["ws", "node_modules", ".bin", "oxlint"] rfl

/-- Claim C4: when no package is reachable from any source — module
resolution always throws and every filesystem existence check fails — each
locator returns `none`; the locators are total functions into `Option`, so
no internal error (resolution failure, manifest error, filesystem failure,
or subprocess failure, the latter absorbed by `safeSpawnSync` for every
possible `runSpawn`) reaches the caller. -/
theorem locators_absent_when_nothing_reachable (env : Env)
    (senv : SettingsEnv) (cache : Option (List (List String)))
    (binaryName s : String)
    (hres : ∀ n ps, env.requireResolve n ps = none)
    (hstat : ∀ p, env.stat p = false)
    (hstatS : ∀ q, senv.stat q = false) :
    searchProjectNodeModulesBin env cache binaryName = none ∧
    searchGlobalNodeModulesBin env binaryName = none ∧
    searchSettingsBin senv s = none := by
  refine ⟨?_, ?_, searchSettingsBin_none_of_stat senv s hstatS⟩
  · have hbody : searchProjectNodeModulesBin env cache binaryName =
        (match (match env.requireResolve binaryName (env.workspaceFolders.getD []) with
          | some rp =>
            (replaceTargetFromMainToBin env.readPackageJson rp binaryName).toOption
          | none => none) with
        | some p => some p
        | none =>
          match searchNodeModulesDefaultBinPath env.stat env.win32 binaryName
              ((env.workspaceFolders.getD []).map fun folder =>
                folder ++ ["node_modules"]) with
          | some result => some result
          | none =>
            searchNodeModulesDefaultBinPath env.stat env.win32 binaryName
              (getWorkspacePackageJsonNodeModules env cache).1) := rfl
    rw [hbody, hres,
      searchNodeModules_none_of_stat env.stat env.win32 binaryName _ hstat,
      searchNodeModules_none_of_stat env.stat env.win32 binaryName _ hstat]
  · have hbody : searchGlobalNodeModulesBin env binaryName =
        (match (match env.requireResolve binaryName (globalNodeModulesPaths env) with
          | some rp =>
            (replaceTargetFromMainToBin env.readPackageJson rp binaryName).toOption
          | none => none) with
        | some p => some p
        | none =>
          searchNodeModulesDefaultBinPath env.stat env.win32 binaryName
            (globalNodeModulesPaths env)) := rfl
    rw [hbody, hres,
      searchNodeModules_none_of_stat env.stat env.win32 binaryName _ hstat]

/-- Witness for C4: the concrete all-failing environment yields `none` from
all three locators. -/
theorem locators_absent_when_nothing_reachable_witness :
    searchProjectNodeModulesBin envNothing none "oxlint" = none ∧
    searchGlobalNodeModulesBin envNothing "oxlint" = none ∧
    searchSettingsBin senvNothing "/opt/oxlint" = none :=
  locators_absent_when_nothing_reachable envNothing senvNothing none
    "oxlint" "/opt/oxlint" (fun _ _ => rfl) (fun _ => rfl) (fun _ => rfl)

/-- Claim C6: the workspace manifest index is memoized — the first call
scans and stores, any later call with a populated memo returns the stored
value unchanged no matter how the workspace has changed since, clearing
unconditionally resets the memo to uninitialized, and the call after a
clear rescans and therefore contains the dependency directory of every
manifest now on disk. -/
theorem workspaceManifestIndex_memoized (env envLater : Env)
    (v : List (List String)) (cache : Option (List (List String))) :
    (getWorkspacePackageJsonNodeModules env none =
      (env.findFilesPackageJson.map fun u => u.dropLast ++ ["node_modules"],
       some (env.findFilesPackageJson.map fun u =>
         u.dropLast ++ ["node_modules"]))) ∧
    (getWorkspacePackageJsonNodeModules envLater (some v) = (v, some v)) ∧
    (clearWorkspacePackageJsonNodeModulesCache cache = none) ∧
    (∀ u ∈ envLater.findFilesPackageJson,
      (u.dropLast ++ ["node_modules"]) ∈
        (getWorkspacePackageJsonNodeModules envLater
          (clearWorkspacePackageJsonNodeModulesCache cache)).1) := by
  refine ⟨rfl, rfl, rfl, ?_⟩
  intro u hu
  simpa [getWorkspacePackageJsonNodeModules,
    clearWorkspacePackageJsonNodeModulesCache] using
    List.mem_map_of_mem (fun u => u.dropLast ++ ["node_modules"]) hu

/-- Witness for C6: a stale memo ignores the manifest at `/b`, and after a
clear the fresh scan includes `/b/node_modules`. -/
theorem workspaceManifestIndex_memoized_witness :
    (getWorkspacePackageJsonNodeModules envScanB
        (some [["a", "node_modules"]])).1 = [["a", "node_modules"]] ∧
    ["b", "node_modules"] ∈
      (getWorkspacePackageJsonNodeModules envScanB
        (clearWorkspacePackageJsonNodeModulesCache
          (some [["a", "node_modules"]]))).1 := by
  have h := workspaceManifestIndex_memoized envScanA envScanB
    [["a", "node_modules"]] (some [["a", "node_modules"]])
  refine ⟨by rw [h.2.1], ?_⟩
  have hb : ["b", "package.json"] ∈ envScanB.findFilesPackageJson := by
    simp [envScanB, envNothing]
  simpa using h.2.2.2 ["b", "package.json"] hb

end OxcVscode

namespace OxcVscode

/-- Claim C10: when the workspace is not trusted, `searchSettingsBin`
returns `none` for every input path — the environment is otherwise
arbitrary, so the result depends neither on the safety predicate nor on
the filesystem nor on path resolution, which formalizes that the trust
gate fires before any of them is consulted. -/
theorem searchSettingsBin_trust_gate (senv : SettingsEnv) (s : String)
    (h : senv.isTrusted = false) :
    searchSettingsBin senv s = none := by
  unfold searchSettingsBin
  rw [h]
  rfl

/-- Witness for C10: an untrusted environment in which the validator
accepts everything and every file exists still yields `none`. -/
theorem searchSettingsBin_trust_gate_witness :
    searchSettingsBin senvUntrusted "/bin/oxlint" = none :=
  searchSettingsBin_trust_gate senvUntrusted "/bin/oxlint" rfl

/-- Counterexample for C9 as stated: on win32, with the first existence
check failing and the path with `.exe` appended existing, the claim's
"additionally checks the path with `.exe` appended" fails for an input
already ending in `.exe` — the source appends only when the suffix is
absent, re-checks the same path, and returns `none`. -/
theorem searchSettingsBin_exe_append_cex :
    searchSettingsBin senvC9 "C:/x.exe" = none ∧
      senvC9.isTrusted = true ∧
      senvC9.validateSafeBinaryPath "C:/x.exe" = true ∧
      senvC9.win32 = true ∧
      senvC9.stat "C:/x.exe" = false ∧
      senvC9.stat ("C:/x.exe" ++ ".exe") = true :=
  ⟨rfl, rfl, rfl, rfl, rfl, rfl⟩

/-- Claim C9 (amended): `searchSettingsBin` behaviour for accepted paths —
a rejected raw path yields `none` for every possible filesystem (no
filesystem access); a relative path with no workspace root yields `none`;
otherwise the resolved path has a trailing `.exe` stripped on non-win32,
is returned when its existence check succeeds, and on win32 only, after a
failed first check, the path with `.exe` appended **when not already
suffixed** (re-checking the unchanged path otherwise) is returned when it
exists; `none` results otherwise. -/
theorem searchSettingsBin_characterization (senv : SettingsEnv) (s : String) :
    (senv.validateSafeBinaryPath s = false →
      ∀ st : String → Bool, searchSettingsBin { senv with stat := st } s = none) ∧
    (senv.isTrusted = true → senv.validateSafeBinaryPath s = true →
      senv.isAbsolute s = false → senv.firstWorkspaceFolder = none →
      searchSettingsBin senv s = none) ∧
    (∀ r, senv.isTrusted = true → senv.validateSafeBinaryPath s = true →
      (if senv.isAbsolute s then some s
       else senv.firstWorkspaceFolder.map fun cwd => senv.joinNorm cwd s) = some r →
      ((senv.stat (if !senv.win32 && strEndsWith r ".exe"
            then strDropRight r 4 else r) = true →
        searchSettingsBin senv s =
          some (if !senv.win32 && strEndsWith r ".exe"
            then strDropRight r 4 else r)) ∧
       (senv.win32 = false →
        senv.stat (if strEndsWith r ".exe" then strDropRight r 4 else r) = false →
        searchSettingsBin senv s = none) ∧
       (senv.win32 = true → senv.stat r = false →
        searchSettingsBin senv s =
          (if senv.stat (if strEndsWith r ".exe" then r else r ++ ".exe") = true
           then some (if strEndsWith r ".exe" then r else r ++ ".exe")
           else none)))) := by
  refine ⟨?_, ?_, ?_⟩
  · intro hv st
    simp [searchSettingsBin, hv]
  · intro ht hv habs hff
    simp [searchSettingsBin, ht, hv, habs, hff]
  · intro r ht hv hres
    have hstep : searchSettingsBin senv s =
        searchSettingsBinTail senv
          (if !senv.win32 && strEndsWith r ".exe" then strDropRight r 4 else r) := by
      unfold searchSettingsBin
      rw [if_neg (by rw [ht]; simp), if_neg (by rw [hv]; simp), hres]
    rw [hstep]
    refine ⟨?_, ?_, ?_⟩
    · intro h1
      simp at h1
      simp [searchSettingsBinTail, h1]
    · intro hw h1
      simp [searchSettingsBinTail, hw, h1]
    · intro hw h1
      simp [searchSettingsBinTail, hw, h1]

/-- Witness for C9: on win32 with only `C:/tool.exe` existing, the setting
`C:/tool` resolves to `C:/tool.exe` through the append-and-recheck
branch. -/
theorem searchSettingsBin_characterization_witness :
    searchSettingsBin senvWin "C:/tool" = some "C:/tool.exe" := by
  have h := ((searchSettingsBin_characterization senvWin "C:/tool").2.2
    "C:/tool" rfl rfl rfl).2.2 rfl rfl
  rw [h]
  rfl

end OxcVscode

namespace OxcVscode

lemma runExecutable_script (host : LspEnv) (targetPath toolName : String)
    (nodePath : Option String)
    (hscript : (strEndsWith targetPath ".js" || strEndsWith targetPath ".cjs" ||
      strEndsWith targetPath ".mjs") = true) :
    runExecutable host targetPath toolName nodePath =
      { command := (resolveNodePath host nodePath).1
        args := [targetPath, "--lsp"]
        shell := false
        env := launchEnv host
          (some (dirnameStr (resolveNodePath host nodePath).1))
          (resolveNodePath host nodePath).2 } := by
  unfold runExecutable
  rw [if_pos hscript]

lemma runExecutable_binary (host : LspEnv) (targetPath toolName : String)
    (nodePath : Option String)
    (hscript : (strEndsWith targetPath ".js" || strEndsWith targetPath ".cjs" ||
      strEndsWith targetPath ".mjs") = false) :
    runExecutable host targetPath toolName nodePath =
      (if host.win32 then
        { command := "\"" ++ targetPath ++ "\""
          args := ["--lsp"]
          shell := true
          env := launchEnv host (nodePath.map dirnameStr) false }
      else
        { command := targetPath
          args := ["--lsp"]
          shell := false
          env := launchEnv host (nodePath.map dirnameStr) false }) := by
  unfold runExecutable
  rw [if_neg (by rw [hscript]; simp)]

/-- Claim C8 (spec-modelled): the launch-descriptor builder dispatches on
the target's extension — `.js`/`.cjs`/`.mjs` targets run under the
resolved runtime with `args = [targetPath, "--lsp"]`; any other target on
a non-win32 platform is launched as the bare unquoted path with
`args = ["--lsp"]` and `shell = false`; any other target on win32 is
double-quoted with `shell = true`. -/
theorem runExecutable_dispatch (host : LspEnv) (targetPath toolName : String)
    (nodePath : Option String) :
    ((strEndsWith targetPath ".js" || strEndsWith targetPath ".cjs" ||
        strEndsWith targetPath ".mjs") = true →
      (runExecutable host targetPath toolName nodePath).command =
          (resolveNodePath host nodePath).1 ∧
        (runExecutable host targetPath toolName nodePath).args =
          [targetPath, "--lsp"]) ∧
    ((strEndsWith targetPath ".js" || strEndsWith targetPath ".cjs" ||
        strEndsWith targetPath ".mjs") = false → host.win32 = false →
      (runExecutable host targetPath toolName nodePath).command = targetPath ∧
        (runExecutable host targetPath toolName nodePath).args = ["--lsp"] ∧
        (runExecutable host targetPath toolName nodePath).shell = false) ∧
    ((strEndsWith targetPath ".js" || strEndsWith targetPath ".cjs" ||
        strEndsWith targetPath ".mjs") = false → host.win32 = true →
      (runExecutable host targetPath toolName nodePath).command =
          "\"" ++ targetPath ++ "\"" ∧
        (runExecutable host targetPath toolName nodePath).shell = true) := by
  refine ⟨?_, ?_, ?_⟩
  · intro h
    rw [runExecutable_script host targetPath toolName nodePath h]
    exact ⟨rfl, rfl⟩
  · intro h hw
    rw [runExecutable_binary host targetPath toolName nodePath h, hw]
    exact ⟨rfl, rfl, rfl⟩
  · intro h hw
    rw [runExecutable_binary host targetPath toolName nodePath h, hw]
    exact ⟨rfl, rfl⟩

/-- Witness for C8: a script target uses the runtime with
`[target, "--lsp"]`; a native target on win32 is double-quoted with the
shell flag set. -/
theorem runExecutable_dispatch_witness :
    (runExecutable lspEnvShell "/path/to/server.js" "oxlint"
        (some "/custom/node/bin/node")).command = "/custom/node/bin/node" ∧
    (runExecutable lspEnvWin "C:/srv/tool" "oxlint" none).command =
        "\"C:/srv/tool\"" ∧
    (runExecutable lspEnvWin "C:/srv/tool" "oxlint" none).shell = true := by
  refine ⟨?_, ?_, ?_⟩
  · exact (runExecutable_dispatch lspEnvShell "/path/to/server.js" "oxlint"
      (some "/custom/node/bin/node")).1 rfl |>.1
  · exact ((runExecutable_dispatch lspEnvWin "C:/srv/tool" "oxlint" none).2.2
      rfl rfl).1
  · exact ((runExecutable_dispatch lspEnvWin "C:/srv/tool" "oxlint" none).2.2
      rfl rfl).2

/-- Claim C7 (spec-modelled): for a script target with no explicit runtime,
when the PATH tier fails and the login-shell tier succeeds, the resolved
command is exactly the last non-empty line of the shell's standard output;
when the login-shell tier fails too (no `SHELL`, failed spawn, or no
non-empty output line), the command is the hosting process's own
executable and `ELECTRON_RUN_AS_NODE=1` is set in the descriptor's
environment. -/
theorem runtimeResolver_shell_fallback (host : LspEnv)
    (targetPath toolName sh : String)
    (hscript : strEndsWith targetPath ".js" = true)
    (hnode : spawnOk (host.spawn "node" ["--version"]) = false) :
    (host.envSHELL = some sh →
      spawnOk (host.spawn sh ["-ilc", "which node"]) = true →
      ∀ line,
        lastNonEmptyLine (host.spawn sh ["-ilc", "which node"]).stdout =
          some line →
        (runExecutable host targetPath toolName none).command = line) ∧
    ((host.envSHELL = none ∨
        (host.envSHELL = some sh ∧
          spawnOk (host.spawn sh ["-ilc", "which node"]) = false) ∨
        (host.envSHELL = some sh ∧
          lastNonEmptyLine (host.spawn sh ["-ilc", "which node"]).stdout =
            none)) →
      (runExecutable host targetPath toolName none).command = host.execPath ∧
        ("ELECTRON_RUN_AS_NODE", "1") ∈
          (runExecutable host targetPath toolName none).env) := by
  have hcmd := runExecutable_script host targetPath toolName none (by simp [hscript])
  constructor
  · intro hsh hok line hline
    have hres : resolveNodePath host none = (line, false) := by
      simp [resolveNodePath, hnode, hsh, hok, hline]
    rw [hcmd]
    simp [hres]
  · intro hfail
    have hres : resolveNodePath host none = (host.execPath, true) := by
      rcases hfail with hsh | ⟨hsh, hok⟩ | ⟨hsh, hline⟩
      · simp [resolveNodePath, hnode, hsh]
      · simp [resolveNodePath, hnode, hsh, hok]
      · cases hok : spawnOk (host.spawn sh ["-ilc", "which node"]) with
        | false => simp [resolveNodePath, hnode, hsh, hok]
        | true => simp [resolveNodePath, hnode, hsh, hok, hline]
    rw [hcmd]
    refine ⟨by simp [hres], ?_⟩
    rw [hres]
    simp [launchEnv]

/-- Witness for C7: the login-shell tier picks the last non-empty stdout
line, and with every subprocess failing the host executable is used with
the bare-interpreter flag. -/
theorem runtimeResolver_shell_fallback_witness :
    (runExecutable lspEnvShell "/path/to/server.js" "oxlint" none).command =
        "/opt/homebrew/bin/node" ∧
    (runExecutable lspEnvFail "/path/to/server.js" "oxlint" none).command =
        lspEnvFail.execPath ∧
    ("ELECTRON_RUN_AS_NODE", "1") ∈
      (runExecutable lspEnvFail "/path/to/server.js" "oxlint" none).env := by
  refine ⟨?_, ?_, ?_⟩
  · exact (runtimeResolver_shell_fallback lspEnvShell "/path/to/server.js"
      "oxlint" "/bin/zsh" rfl rfl).1 rfl rfl "/opt/homebrew/bin/node" rfl
  · exact ((runtimeResolver_shell_fallback lspEnvFail "/path/to/server.js"
      "oxlint" "/bin/zsh" rfl rfl).2 (Or.inr (Or.inl ⟨rfl, rfl⟩))).1
  · exact ((runtimeResolver_shell_fallback lspEnvFail "/path/to/server.js"
      "oxlint" "/bin/zsh" rfl rfl).2 (Or.inr (Or.inl ⟨rfl, rfl⟩))).2

end OxcVscode
